import Mathlib

/-!
Verification of the per-page OCR-text detector (`src/app.py`).

The embedding models the core of `analizar_pdf`: range normalization over the
document's page count, per-page text extraction with classification against a
`min_chars` threshold, and the aggregation into per-page records plus a summary,
together with `abrir_documento`, the document-opening step that can fail.

A Python `str` is modelled as a Lean `String`; the Python string operations used
by the source (`strip`, `split`, `len`, slicing, `replace`) are re-implemented
below over the character list, following Python's semantics for its ASCII
whitespace. PyMuPDF is an external collaborator: a document is a list of pages,
and each page's `get_text()` either returns a string or raises, modelled as
`Option String` (`none` = the extraction raises).
-/

/-- The six ASCII whitespace characters of Python's `str.strip` / `str.split`. -/
def isPySpace (c : Char) : Bool :=
  c = ' ' || c = '\t' || c = '\n' || c = '\r' || c = '\x0B' || c = '\x0C'

/-- Python `str.strip()`: drop leading and trailing whitespace. -/
def pyStrip (s : String) : String :=
  ⟨((s.data.dropWhile isPySpace).reverse.dropWhile isPySpace).reverse⟩

/-- Helper of `pySplit`: accumulate the current (reversed) token while scanning. -/
def splitWsAux : List Char → List Char → List (List Char)
  | [], [] => []
  | [], cur => [cur.reverse]
  | c :: cs, cur =>
    if isPySpace c then
      if cur = [] then splitWsAux cs [] else cur.reverse :: splitWsAux cs []
    else splitWsAux cs (c :: cur)

/-- Python `str.split()` with no argument: whitespace-delimited tokens. -/
def pySplit (s : String) : List String :=
  (splitWsAux s.data []).map (fun l => ⟨l⟩)

/-- Python `len` on a string: number of characters (code points). -/
def pyLen (s : String) : Nat :=
  s.data.length

/-- Python `text[:200].replace("\n", " ")`: first 200 characters, each newline
replaced by a space. -/
def pyMuestra (text : String) : String :=
  ⟨(text.data.take 200).map (fun c => if c = '\n' then ' ' else c)⟩

/-- A PyMuPDF document handle, reduced to what the core uses: per-index page
access where extracting a page's text either yields the raw string or raises
(`none`). The page count is the number of pages. -/
structure Doc where
  pages : List (Option String)
deriving DecidableEq

/-- `len(doc)`: the total page count. -/
def Doc.totalPages (d : Doc) : Nat :=
  d.pages.length

/-- `doc[i].get_text()` for an in-range index: the raw text, or `none` when the
extraction raises. -/
def Doc.getText (d : Doc) (i : Nat) : Option String :=
  d.pages.getD i none

/-- One row of `registros` / of the exported detail table (source lines 95-101). -/
structure PageRecord where
  pagina : Nat
  tiene_texto : Bool
  caracteres : Nat
  palabras : Nat
  muestra_texto : String
deriving DecidableEq

/-- The `resumen` dictionary (source lines 117-123). -/
structure Resumen where
  total_paginas_analizadas : Nat
  paginas_con_texto : Nat
  paginas_sin_texto : Nat
  lista_paginas_con_texto : List Nat
  lista_paginas_sin_texto : List Nat
deriving DecidableEq

/-- Clamp one 1-indexed bound into the valid 0-indexed page range:
`max(0, min(total_pages - 1, x - 1))` (source lines 65-66). -/
def clampIdx (totalPages : Nat) (x : Int) : Int :=
  max 0 (min ((totalPages : Int) - 1) (x - 1))

/-- Range normalization of `analizar_pdf` (source lines 61-68): absent bounds
select the whole document; otherwise each bound is clamped independently and
the pair is swapped when out of order. -/
def normalizarRango (totalPages : Nat) (start1idx end1idx : Option Int) : Int × Int :=
  match start1idx, end1idx with
  | some s, some e =>
    let start := clampIdx totalPages s
    let stop := clampIdx totalPages e
    if stop < start then (stop, start) else (start, stop)
  | _, _ => (0, (totalPages : Int) - 1)

/-- `list(range(start, end + 1))` (source line 73): the 0-indexed pages to
process, as naturals. -/
def pagesToProcess (start stop : Int) : List Nat :=
  if stop < start then [] else List.range' start.toNat (stop + 1 - start).toNat

/-- The trimmed text extracted from page `i`: `page.get_text().strip()`, with a
raising extraction degraded to the empty string (source lines 81-84). -/
def textoExtraido (doc : Doc) (i : Nat) : String :=
  match doc.getText i with
  | some s => pyStrip s
  | none => ""

/-- The body of one loop iteration of `analizar_pdf` (source lines 77-101):
derive the metrics and classification of page index `i` and build its record. -/
def procesarPagina (doc : Doc) (minChars : Nat) (i : Nat) : PageRecord :=
  let text := textoExtraido doc i
  let char_count := pyLen text
  let word_count := if text = "" then 0 else (pySplit text).length
  let tiene_texto := decide (char_count ≥ minChars)
  { pagina := i + 1
    tiene_texto := tiene_texto
    caracteres := char_count
    palabras := word_count
    muestra_texto := if text = "" then "" else pyMuestra text }

/-- The page loop of `analizar_pdf` (source lines 77-101): for each index, in
order, append the record and append the 1-indexed page number to the
with-text or without-text list. Returns `(registros, paginas_con, paginas_sin)`. -/
def loopPaginas (doc : Doc) (minChars : Nat) : List Nat → List PageRecord × List Nat × List Nat
  | [] => ([], [], [])
  | i :: rest =>
    let r := procesarPagina doc minChars i
    let prev := loopPaginas doc minChars rest
    if r.tiene_texto then (r :: prev.1, r.pagina :: prev.2.1, prev.2.2)
    else (r :: prev.1, prev.2.1, r.pagina :: prev.2.2)

/-- Stable insertion by ascending `pagina`, used to model
`df.sort_values("pagina")`. -/
def insertByPagina (r : PageRecord) : List PageRecord → List PageRecord
  | [] => [r]
  | x :: xs => if r.pagina ≤ x.pagina then r :: x :: xs else x :: insertByPagina r xs

/-- `df.sort_values("pagina")` (source line 115): sort the records by ascending
page number. The `pagina` keys are distinct, so any comparison sort produces
this order. -/
def sortByPagina : List PageRecord → List PageRecord
  | [] => []
  | x :: xs => insertByPagina x (sortByPagina xs)

/-- The core of `analizar_pdf` (source lines 58-124) on an already-opened
document: normalize the range, process each page, sort the detail table and
build the summary. -/
def analizarDoc (doc : Doc) (minChars : Nat) (start1idx end1idx : Option Int) :
    List PageRecord × Resumen :=
  let total_pages := doc.totalPages
  let se := normalizarRango total_pages start1idx end1idx
  let res := loopPaginas doc minChars (pagesToProcess se.1 se.2)
  let registros := res.1
  let paginas_con := res.2.1
  let paginas_sin := res.2.2
  let df := sortByPagina registros
  (df,
    { total_paginas_analizadas := df.length
      paginas_con_texto := paginas_con.length
      paginas_sin_texto := paginas_sin.length
      lista_paginas_con_texto := paginas_con
      lista_paginas_sin_texto := paginas_sin })

/-- Whether `doc.authenticate("")` grants access, denies it, or raises. -/
inductive AuthResult where
  | granted
  | denied
  | raised
deriving DecidableEq

/-- What `fitz.open` exposes of a successfully parsed file: the document's
pages, its encryption flag, and the outcome of empty-password authentication. -/
structure RawDoc where
  contenido : Doc
  isEncrypted : Bool
  authEmpty : AuthResult
deriving DecidableEq

/-- The uploaded bytes, as `fitz.open` sees them: either parsing raises
(with some detail message) or it yields a `RawDoc`. -/
inductive PdfFile where
  | unopenable (detail : String)
  | openable (d : RawDoc)
deriving DecidableEq

/-- A Python exception as it escapes `abrir_documento`: the caller treats
`RuntimeError` (shown via `st.error`) differently from any other exception
(shown via `st.exception`), `ValueError` included. -/
inductive PyError where
  | runtimeError (msg : String)
  | valueError (msg : String)
deriving DecidableEq

/-- The error message raised for an encrypted document without an accessible
password. -/
def msgCifrado : String :=
  "El PDF está cifrado y requiere contraseña. No se puede analizar."

/-- The message of the `ValueError` PyMuPDF raises when `close()` is called on
an already-closed document. -/
def msgDocClosed : String :=
  "document closed"

/-- `abrir_documento` (source lines 38-54): open the PDF, failing when parsing
raises or when the file is encrypted and empty-password authentication does not
grant access. When `authenticate("")` returns falsy, the `if` body closes the
document and raises the cifrado `RuntimeError`; that raise is caught by the
enclosing `except Exception`, whose handler calls `doc.close()` a second time
on the now-closed document, so PyMuPDF raises `ValueError("document closed")`
from inside the handler and that is what escapes. Only when `authenticate("")`
itself raises does the handler succeed in closing the document and re-raise the
cifrado `RuntimeError`. -/
def abrir_documento : PdfFile → Except PyError Doc
  | .unopenable detail =>
    .error (.runtimeError
      ("No se pudo abrir el PDF. ¿Está dañado o no es un PDF válido?\nDetalle: " ++ detail))
  | .openable d =>
    if d.isEncrypted then
      match d.authEmpty with
      | .granted => .ok d.contenido
      | .denied => .error (.valueError msgDocClosed)
      | .raised => .error (.runtimeError msgCifrado)
    else .ok d.contenido

/-- `analizar_pdf` (source lines 56-124): open the document, then run the core
analysis; a document-level failure propagates and produces no results. -/
def analizar_pdf (f : PdfFile) (minChars : Nat) (start1idx end1idx : Option Int) :
    Except PyError (List PageRecord × Resumen) :=
  match abrir_documento f with
  | .error msg => .error msg
  | .ok doc => .ok (analizarDoc doc minChars start1idx end1idx)

/-! ### Helper lemmas on range normalization -/

lemma clampIdx_nonneg (t : Nat) (x : Int) : 0 ≤ clampIdx t x := by
  unfold clampIdx; omega

lemma clampIdx_le (t : Nat) (h : 0 < t) (x : Int) : clampIdx t x ≤ (t : Int) - 1 := by
  unfold clampIdx; omega

lemma normalizarRango_some (t : Nat) (s e : Int) :
    normalizarRango t (some s) (some e) =
      if clampIdx t e < clampIdx t s then (clampIdx t e, clampIdx t s)
      else (clampIdx t s, clampIdx t e) := rfl

lemma normalizarRango_none_left (t : Nat) (e1 : Option Int) :
    normalizarRango t none e1 = (0, (t : Int) - 1) := rfl

lemma normalizarRango_none_right (t : Nat) (s : Int) :
    normalizarRango t (some s) none = (0, (t : Int) - 1) := rfl

lemma normalizarRango_bounds (t : Nat) (h : 0 < t) (s1 e1 : Option Int) :
    0 ≤ (normalizarRango t s1 e1).1 ∧
      (normalizarRango t s1 e1).1 ≤ (normalizarRango t s1 e1).2 ∧
      (normalizarRango t s1 e1).2 ≤ (t : Int) - 1 := by
  rcases s1 with _ | s
  · rw [normalizarRango_none_left]
    exact ⟨le_refl 0, by omega, le_refl _⟩
  · rcases e1 with _ | e
    · rw [normalizarRango_none_right]
      exact ⟨le_refl 0, by omega, le_refl _⟩
    · rw [normalizarRango_some]
      have h1 := clampIdx_nonneg t s
      have h2 := clampIdx_nonneg t e
      have h3 := clampIdx_le t h s
      have h4 := clampIdx_le t h e
      split_ifs with hlt <;> dsimp only <;> omega

lemma normalizarRango_symm (t : Nat) (s e : Int) :
    normalizarRango t (some e) (some s) = normalizarRango t (some s) (some e) := by
  rw [normalizarRango_some, normalizarRango_some]
  rcases lt_trichotomy (clampIdx t s) (clampIdx t e) with hlt | heq | hgt
  · rw [if_pos hlt, if_neg (by omega)]
  · rw [heq]
  · rw [if_neg (by omega), if_pos hgt]

lemma pagesToProcess_self (a : Int) : pagesToProcess a a = [a.toNat] := by
  unfold pagesToProcess
  rw [if_neg (lt_irrefl a)]
  have h1 : (a + 1 - a).toNat = 1 := by omega
  rw [h1]
  simp [List.range']

/-! ### Range-normalization claims -/

/-- Claim C2: for every positive `total_pages` and every optional 1-indexed
pair, normalization yields a 0-indexed inclusive pair `(lo, hi)` with
`0 ≤ lo ≤ hi ≤ total_pages - 1`; with no range supplied the result is
`(0, total_pages - 1)`. -/
theorem rango_normalizado_valido (totalPages : Nat) (h : 0 < totalPages)
    (start1idx end1idx : Option Int) :
    (0 ≤ (normalizarRango totalPages start1idx end1idx).1 ∧
      (normalizarRango totalPages start1idx end1idx).1 ≤
        (normalizarRango totalPages start1idx end1idx).2 ∧
      (normalizarRango totalPages start1idx end1idx).2 ≤ (totalPages : Int) - 1) ∧
    normalizarRango totalPages none none = (0, (totalPages : Int) - 1) :=
  ⟨normalizarRango_bounds totalPages h start1idx end1idx, rfl⟩

theorem rango_normalizado_valido_test :
    0 < 3 ∧
    ((0 ≤ (normalizarRango 3 (some 5) (some 2)).1 ∧
      (normalizarRango 3 (some 5) (some 2)).1 ≤ (normalizarRango 3 (some 5) (some 2)).2 ∧
      (normalizarRango 3 (some 5) (some 2)).2 ≤ (3 : Int) - 1) ∧
    normalizarRango 3 none none = (0, (3 : Int) - 1)) :=
  ⟨by decide, rango_normalizado_valido 3 (by decide) (some 5) (some 2)⟩

/-- Claim C6: for a 1-indexed pair with `end < start`, analyzing with the
swapped range `(end, start)` yields records and summary identical to analyzing
with `(start, end)`. -/
theorem analisis_rango_invertido (doc : Doc) (minChars : Nat) (s e : Int)
    (h : e < s) :
    analizarDoc doc minChars (some e) (some s) =
      analizarDoc doc minChars (some s) (some e) := by
  simp only [analizarDoc]
  rw [normalizarRango_symm]

/-- A concrete three-page document used to instantiate the theorems: page 0 has
plenty of text, page 1's extraction raises, page 2 is whitespace only. -/
def docEjemplo : Doc :=
  ⟨[some "Hola mundo,\neste es un texto largo.", none, some "   \n "]⟩

theorem analisis_rango_invertido_test :
    (1 : Int) < 3 ∧
      analizarDoc docEjemplo 5 (some 1) (some 3) =
        analizarDoc docEjemplo 5 (some 3) (some 1) :=
  ⟨by decide, analisis_rango_invertido docEjemplo 5 3 1 (by decide)⟩

/-- Claim C7: a requested 1-indexed range lying entirely outside
`[1, total_pages]` normalizes to a single in-bounds page (`lo = hi`, one page
processed, never empty); a range entirely above the document collapses to the
last page. -/
theorem rango_fuera_colapsa (totalPages : Nat) (h : 0 < totalPages) (s e : Int)
    (hout : (s < 1 ∧ e < 1) ∨ ((totalPages : Int) < s ∧ (totalPages : Int) < e)) :
    (normalizarRango totalPages (some s) (some e)).1 =
        (normalizarRango totalPages (some s) (some e)).2 ∧
    0 ≤ (normalizarRango totalPages (some s) (some e)).1 ∧
    (normalizarRango totalPages (some s) (some e)).2 ≤ (totalPages : Int) - 1 ∧
    (pagesToProcess (normalizarRango totalPages (some s) (some e)).1
        (normalizarRango totalPages (some s) (some e)).2).length = 1 ∧
    (((totalPages : Int) < s ∧ (totalPages : Int) < e) →
      (normalizarRango totalPages (some s) (some e)).1 = (totalPages : Int) - 1) := by
  rcases hout with ⟨hs, he⟩ | ⟨hs, he⟩
  · have h1 : clampIdx totalPages s = 0 := by unfold clampIdx; omega
    have h2 : clampIdx totalPages e = 0 := by unfold clampIdx; omega
    rw [normalizarRango_some, h1, h2, if_neg (lt_irrefl 0)]
    refine ⟨rfl, le_refl 0, by omega, ?_, ?_⟩
    · rw [pagesToProcess_self]; rfl
    · intro hcon; omega
  · have h1 : clampIdx totalPages s = (totalPages : Int) - 1 := by unfold clampIdx; omega
    have h2 : clampIdx totalPages e = (totalPages : Int) - 1 := by unfold clampIdx; omega
    rw [normalizarRango_some, h1, h2, if_neg (lt_irrefl _)]
    refine ⟨rfl, by omega, le_refl _, ?_, fun _ => rfl⟩
    rw [pagesToProcess_self]; rfl

theorem rango_fuera_colapsa_test :
    (0 < 3 ∧ (((10 : Int) < 1 ∧ (12 : Int) < 1) ∨ ((3 : Int) < 10 ∧ (3 : Int) < 12))) ∧
      (normalizarRango 3 (some 10) (some 12)).1 = (normalizarRango 3 (some 10) (some 12)).2 :=
  ⟨⟨by decide, by decide⟩, (rango_fuera_colapsa 3 (by decide) 10 12 (by decide)).1⟩

/-- Claim C8: range normalization is idempotent: re-expressing the normalized
0-indexed pair as 1-indexed and normalizing again yields the same pair. -/
theorem normalizacion_idempotente (totalPages : Nat) (h : 0 < totalPages) (s e : Int) :
    normalizarRango totalPages
        (some ((normalizarRango totalPages (some s) (some e)).1 + 1))
        (some ((normalizarRango totalPages (some s) (some e)).2 + 1)) =
      normalizarRango totalPages (some s) (some e) := by
  obtain ⟨h1, h2, h3⟩ := normalizarRango_bounds totalPages h (some s) (some e)
  set p := normalizarRango totalPages (some s) (some e) with hp
  rw [normalizarRango_some]
  have ha : clampIdx totalPages (p.1 + 1) = p.1 := by unfold clampIdx; omega
  have hb : clampIdx totalPages (p.2 + 1) = p.2 := by unfold clampIdx; omega
  rw [ha, hb, if_neg (by omega)]

theorem normalizacion_idempotente_test :
    0 < 5 ∧
      normalizarRango 5 (some ((normalizarRango 5 (some 2) (some 9)).1 + 1))
          (some ((normalizarRango 5 (some 2) (some 9)).2 + 1)) =
        normalizarRango 5 (some 2) (some 9) :=
  ⟨by decide, normalizacion_idempotente 5 (by decide) 2 9⟩

/-- Claim C10: supplying only one bound of the optional range (the other being
`None`) is treated exactly like supplying no range: the whole document
`(0, total_pages - 1)` is analyzed. -/
theorem rango_parcial_es_completo (f : PdfFile) (minChars : Nat) (s e : Int) (t : Nat) :
    analizar_pdf f minChars (some s) none = analizar_pdf f minChars none none ∧
    analizar_pdf f minChars none (some e) = analizar_pdf f minChars none none ∧
    normalizarRango t (some s) none = (0, (t : Int) - 1) ∧
    normalizarRango t none (some e) = (0, (t : Int) - 1) := by
  refine ⟨?_, ?_, rfl, rfl⟩ <;> (unfold analizar_pdf; cases abrir_documento f <;> rfl)

/-! ### Helper lemmas on the page loop, the sort and the filters -/

lemma procesarPagina_pagina (doc : Doc) (m i : Nat) :
    (procesarPagina doc m i).pagina = i + 1 := rfl

lemma loopPaginas_fst (doc : Doc) (m : Nat) (l : List Nat) :
    (loopPaginas doc m l).1 = l.map (procesarPagina doc m) := by
  induction l with
  | nil => rfl
  | cons i rest ih =>
    simp only [loopPaginas, List.map]
    split <;> simpa using ih

lemma loopPaginas_con (doc : Doc) (m : Nat) (l : List Nat) :
    (loopPaginas doc m l).2.1 =
      (l.filter (fun i => (procesarPagina doc m i).tiene_texto)).map (· + 1) := by
  induction l with
  | nil => rfl
  | cons i rest ih =>
    simp only [loopPaginas]
    split <;> rename_i hcond <;>
      simp [List.filter_cons, hcond, ih, procesarPagina_pagina]

lemma loopPaginas_sin (doc : Doc) (m : Nat) (l : List Nat) :
    (loopPaginas doc m l).2.2 =
      (l.filter (fun i => !(procesarPagina doc m i).tiene_texto)).map (· + 1) := by
  induction l with
  | nil => rfl
  | cons i rest ih =>
    simp only [loopPaginas]
    split <;> rename_i hcond <;>
      simp [List.filter_cons, hcond, ih, procesarPagina_pagina]

lemma length_insertByPagina (r : PageRecord) (l : List PageRecord) :
    (insertByPagina r l).length = l.length + 1 := by
  induction l with
  | nil => rfl
  | cons x xs ih =>
    simp only [insertByPagina]
    split <;> simp [ih]

lemma length_sortByPagina (l : List PageRecord) :
    (sortByPagina l).length = l.length := by
  induction l with
  | nil => rfl
  | cons x xs ih => simp [sortByPagina, length_insertByPagina, ih]

lemma mem_insertByPagina (r x : PageRecord) (l : List PageRecord) :
    x ∈ insertByPagina r l ↔ x = r ∨ x ∈ l := by
  induction l with
  | nil => simp [insertByPagina]
  | cons y ys ih =>
    simp only [insertByPagina]
    split <;> simp [ih] <;> tauto

lemma mem_sortByPagina (x : PageRecord) (l : List PageRecord) :
    x ∈ sortByPagina l ↔ x ∈ l := by
  induction l with
  | nil => simp [sortByPagina]
  | cons y ys ih => simp [sortByPagina, mem_insertByPagina, ih]

lemma length_filter_partition {α : Type} (p : α → Bool) (l : List α) :
    (l.filter p).length + (l.filter (fun a => !p a)).length = l.length := by
  induction l with
  | nil => rfl
  | cons a l ih => by_cases h : p a <;> simp [List.filter_cons, h, ih] <;> omega

lemma pagesToProcess_pairwise (a b : Int) : (pagesToProcess a b).Pairwise (· < ·) := by
  unfold pagesToProcess
  split
  · exact List.Pairwise.nil
  · exact List.pairwise_lt_range' _ _

lemma analizarDoc_fst (doc : Doc) (m : Nat) (s1 e1 : Option Int) :
    (analizarDoc doc m s1 e1).1 =
      sortByPagina ((pagesToProcess (normalizarRango doc.totalPages s1 e1).1
        (normalizarRango doc.totalPages s1 e1).2).map (procesarPagina doc m)) := by
  simp only [analizarDoc]
  rw [loopPaginas_fst]

/-! ### Per-page classification claims -/

/-- Claim C5: with `min_chars = 0` every analyzed page is classified as having
text, even a page whose trimmed extracted text is empty; in general the
classification is `has_text = (char_count ≥ min_chars)`. -/
theorem umbral_cero_clasifica_todo (doc : Doc) (minChars : Nat) (i : Nat)
    (s1 e1 : Option Int) :
    (procesarPagina doc 0 i).tiene_texto = true ∧
    (procesarPagina doc minChars i).tiene_texto =
      decide ((procesarPagina doc minChars i).caracteres ≥ minChars) ∧
    (∀ r ∈ (analizarDoc doc 0 s1 e1).1, r.tiene_texto = true) ∧
    (analizarDoc doc 0 s1 e1).2.paginas_sin_texto = 0 := by
  have hall : ∀ j, (procesarPagina doc 0 j).tiene_texto = true := by
    intro j
    simp [procesarPagina]
  refine ⟨hall i, rfl, ?_, ?_⟩
  · intro r hr
    rw [analizarDoc_fst, mem_sortByPagina] at hr
    obtain ⟨j, _, rfl⟩ := List.mem_map.mp hr
    exact hall j
  · have hsin : (analizarDoc doc 0 s1 e1).2.paginas_sin_texto =
        ((pagesToProcess (normalizarRango doc.totalPages s1 e1).1
          (normalizarRango doc.totalPages s1 e1).2).filter
            (fun j => !(procesarPagina doc 0 j).tiene_texto)).length := by
      simp only [analizarDoc]
      rw [loopPaginas_sin, List.length_map]
    rw [hsin, List.filter_eq_nil_iff.mpr (by intro a _; simp [hall a])]
    rfl

/-- Claim C9: each record's `text_sample` is the first at-most-200 characters of
the trimmed extracted text with newlines replaced by spaces; it is empty when
the trimmed text is empty, contains no newline, and never exceeds 200
characters. -/
theorem muestra_texto_correcta (doc : Doc) (minChars : Nat) (i : Nat) :
    (procesarPagina doc minChars i).muestra_texto.data =
      ((textoExtraido doc i).data.take 200).map (fun c => if c = '\n' then ' ' else c) ∧
    (textoExtraido doc i = "" → (procesarPagina doc minChars i).muestra_texto = "") ∧
    pyLen (procesarPagina doc minChars i).muestra_texto ≤ 200 ∧
    (∀ c ∈ (procesarPagina doc minChars i).muestra_texto.data, c ≠ '\n') := by
  have hdata : (procesarPagina doc minChars i).muestra_texto.data =
      ((textoExtraido doc i).data.take 200).map (fun c => if c = '\n' then ' ' else c) := by
    by_cases h : textoExtraido doc i = ""
    · simp [procesarPagina, h]
    · simp [procesarPagina, h, pyMuestra]
  refine ⟨hdata, ?_, ?_, ?_⟩
  · intro h
    simp [procesarPagina, h]
  · rw [pyLen, hdata, List.length_map]
    exact le_trans (List.length_take_le 200 _) (le_refl 200)
  · intro c hc
    rw [hdata] at hc
    obtain ⟨a, _, rfl⟩ := List.mem_map.mp hc
    by_cases ha : a = '\n' <;> simp [ha]

/-- Claim C3: when a single page's text extraction raises, that page is
recorded with zero counts, an empty sample and `has_text = false` (for
`min_chars ≥ 1`), and the analysis still yields one record for every page of
the normalized range. -/
theorem extraccion_fallida_recuperada (doc : Doc) (minChars : Nat)
    (s1 e1 : Option Int) (i : Nat)
    (hfail : doc.getText i = none) (hmin : 1 ≤ minChars) :
    ((procesarPagina doc minChars i).caracteres = 0 ∧
      (procesarPagina doc minChars i).palabras = 0 ∧
      (procesarPagina doc minChars i).muestra_texto = "" ∧
      (procesarPagina doc minChars i).tiene_texto = false) ∧
    (∀ r ∈ (analizarDoc doc minChars s1 e1).1, r.pagina = i + 1 →
      (r.caracteres = 0 ∧ r.palabras = 0 ∧ r.muestra_texto = "" ∧
        r.tiene_texto = false)) ∧
    (analizarDoc doc minChars s1 e1).1.length =
      (pagesToProcess (normalizarRango doc.totalPages s1 e1).1
        (normalizarRango doc.totalPages s1 e1).2).length := by
  have htext : textoExtraido doc i = "" := by
    unfold textoExtraido
    rw [hfail]
  have hrec : (procesarPagina doc minChars i).caracteres = 0 ∧
      (procesarPagina doc minChars i).palabras = 0 ∧
      (procesarPagina doc minChars i).muestra_texto = "" ∧
      (procesarPagina doc minChars i).tiene_texto = false := by
    refine ⟨?_, ?_, ?_, ?_⟩
    · simp [procesarPagina, htext, pyLen]
    · simp [procesarPagina, htext]
    · simp [procesarPagina, htext]
    · simp [procesarPagina, htext, pyLen]
      omega
  refine ⟨hrec, ?_, ?_⟩
  · intro r hr hpag
    rw [analizarDoc_fst, mem_sortByPagina] at hr
    obtain ⟨j, _, rfl⟩ := List.mem_map.mp hr
    rw [procesarPagina_pagina] at hpag
    have hji : j = i := by omega
    rw [hji]
    exact hrec
  · rw [analizarDoc_fst, length_sortByPagina, List.length_map]

theorem extraccion_fallida_recuperada_test :
    docEjemplo.getText 1 = none ∧ 1 ≤ 5 ∧
      ((procesarPagina docEjemplo 5 1).caracteres = 0 ∧
        (procesarPagina docEjemplo 5 1).palabras = 0 ∧
        (procesarPagina docEjemplo 5 1).muestra_texto = "" ∧
        (procesarPagina docEjemplo 5 1).tiene_texto = false) :=
  ⟨by decide, by decide,
    (extraccion_fallida_recuperada docEjemplo 5 none none 1 (by decide) (by decide)).1⟩

/-- Claim C1: in every successful analysis the summary satisfies
`pages_with_text + pages_without_text = total_pages_analyzed`, and the two
page-number lists are strictly ascending, disjoint, and together are exactly
the 1-indexed page numbers of the normalized analyzed range. -/
theorem resumen_es_particion (doc : Doc) (minChars : Nat) (s1 e1 : Option Int)
    (h : 0 < doc.totalPages) :
    (analizarDoc doc minChars s1 e1).2.paginas_con_texto +
        (analizarDoc doc minChars s1 e1).2.paginas_sin_texto =
      (analizarDoc doc minChars s1 e1).2.total_paginas_analizadas ∧
    ((analizarDoc doc minChars s1 e1).2.lista_paginas_con_texto).Pairwise (· < ·) ∧
    ((analizarDoc doc minChars s1 e1).2.lista_paginas_sin_texto).Pairwise (· < ·) ∧
    (∀ p : Nat, ¬(p ∈ (analizarDoc doc minChars s1 e1).2.lista_paginas_con_texto ∧
      p ∈ (analizarDoc doc minChars s1 e1).2.lista_paginas_sin_texto)) ∧
    (∀ p : Nat,
      (p ∈ (analizarDoc doc minChars s1 e1).2.lista_paginas_con_texto ∨
        p ∈ (analizarDoc doc minChars s1 e1).2.lista_paginas_sin_texto) ↔
      p ∈ (pagesToProcess (normalizarRango doc.totalPages s1 e1).1
          (normalizarRango doc.totalPages s1 e1).2).map (· + 1)) := by
  have hcon : (analizarDoc doc minChars s1 e1).2.lista_paginas_con_texto =
      ((pagesToProcess (normalizarRango doc.totalPages s1 e1).1
        (normalizarRango doc.totalPages s1 e1).2).filter
          (fun j => (procesarPagina doc minChars j).tiene_texto)).map (· + 1) := by
    simp only [analizarDoc]
    rw [loopPaginas_con]
  have hsin : (analizarDoc doc minChars s1 e1).2.lista_paginas_sin_texto =
      ((pagesToProcess (normalizarRango doc.totalPages s1 e1).1
        (normalizarRango doc.totalPages s1 e1).2).filter
          (fun j => !(procesarPagina doc minChars j).tiene_texto)).map (· + 1) := by
    simp only [analizarDoc]
    rw [loopPaginas_sin]
  have hconn : (analizarDoc doc minChars s1 e1).2.paginas_con_texto =
      (analizarDoc doc minChars s1 e1).2.lista_paginas_con_texto.length := by
    simp only [analizarDoc]
  have hsinn : (analizarDoc doc minChars s1 e1).2.paginas_sin_texto =
      (analizarDoc doc minChars s1 e1).2.lista_paginas_sin_texto.length := by
    simp only [analizarDoc]
  have htot : (analizarDoc doc minChars s1 e1).2.total_paginas_analizadas =
      (pagesToProcess (normalizarRango doc.totalPages s1 e1).1
        (normalizarRango doc.totalPages s1 e1).2).length := by
    simp only [analizarDoc]
    rw [loopPaginas_fst, length_sortByPagina, List.length_map]
  have hpw := pagesToProcess_pairwise (normalizarRango doc.totalPages s1 e1).1
    (normalizarRango doc.totalPages s1 e1).2
  refine ⟨?_, ?_, ?_, ?_, ?_⟩
  · rw [hconn, hsinn, htot, hcon, hsin, List.length_map, List.length_map]
    exact length_filter_partition _ _
  · rw [hcon, List.pairwise_map]
    exact (hpw.sublist (List.filter_sublist _)).imp (by omega)
  · rw [hsin, List.pairwise_map]
    exact (hpw.sublist (List.filter_sublist _)).imp (by omega)
  · intro p hp
    obtain ⟨hp1, hp2⟩ := hp
    rw [hcon] at hp1
    rw [hsin] at hp2
    obtain ⟨a, ha, hap⟩ := List.mem_map.mp hp1
    obtain ⟨b, hb, hbp⟩ := List.mem_map.mp hp2
    obtain ⟨haL, hat⟩ := List.mem_filter.mp ha
    obtain ⟨hbL, hbt⟩ := List.mem_filter.mp hb
    have hab : a = b := by omega
    rw [hab] at hat
    rw [hat] at hbt
    simp at hbt
  · intro p
    rw [hcon, hsin]
    constructor
    · rintro (hp | hp) <;>
        obtain ⟨a, ha, hap⟩ := List.mem_map.mp hp <;>
        exact List.mem_map.mpr ⟨a, (List.mem_filter.mp ha).1, hap⟩
    · intro hp
      obtain ⟨a, haL, hap⟩ := List.mem_map.mp hp
      by_cases hc : (procesarPagina doc minChars a).tiene_texto
      · exact Or.inl (List.mem_map.mpr ⟨a, List.mem_filter.mpr ⟨haL, by simp [hc]⟩, hap⟩)
      · exact Or.inr (List.mem_map.mpr ⟨a, List.mem_filter.mpr ⟨haL, by simp [hc]⟩, hap⟩)

theorem resumen_es_particion_test :
    0 < docEjemplo.totalPages ∧
      (analizarDoc docEjemplo 5 none none).2.paginas_con_texto +
          (analizarDoc docEjemplo 5 none none).2.paginas_sin_texto =
        (analizarDoc docEjemplo 5 none none).2.total_paginas_analizadas :=
  ⟨by decide, (resumen_es_particion docEjemplo 5 none none (by decide)).1⟩

/-- Claim C4: an unopenable document, or an encrypted one whose empty-password
authentication does not grant access, makes `analizar_pdf` fail with a
document-level error before any page processing, with no records or summary
produced. On the authentication-denied path the surfaced error is the
`ValueError("document closed")` from the handler re-closing the already-closed
document; only on the authentication-raising path is it the cifrado
`RuntimeError`. -/
theorem fallo_documento_sin_resultados (f : PdfFile) (minChars : Nat)
    (s1 e1 : Option Int) :
    (∀ detail, f = PdfFile.unopenable detail →
      ∃ err, analizar_pdf f minChars s1 e1 = Except.error err) ∧
    (∀ d, f = PdfFile.openable d → d.isEncrypted = true →
      d.authEmpty ≠ AuthResult.granted →
      ∃ err, analizar_pdf f minChars s1 e1 = Except.error err) ∧
    (∀ d, f = PdfFile.openable d → d.isEncrypted = true →
      d.authEmpty = AuthResult.denied →
      analizar_pdf f minChars s1 e1 =
        Except.error (PyError.valueError msgDocClosed)) ∧
    (∀ d, f = PdfFile.openable d → d.isEncrypted = true →
      d.authEmpty = AuthResult.raised →
      analizar_pdf f minChars s1 e1 =
        Except.error (PyError.runtimeError msgCifrado)) := by
  have hden : ∀ d : RawDoc, d.isEncrypted = true → d.authEmpty = AuthResult.denied →
      analizar_pdf (PdfFile.openable d) minChars s1 e1 =
        Except.error (PyError.valueError msgDocClosed) := by
    intro d henc hd
    have hopen : abrir_documento (PdfFile.openable d) =
        Except.error (PyError.valueError msgDocClosed) := by
      simp [abrir_documento, henc, hd]
    unfold analizar_pdf
    rw [hopen]
  have hrai : ∀ d : RawDoc, d.isEncrypted = true → d.authEmpty = AuthResult.raised →
      analizar_pdf (PdfFile.openable d) minChars s1 e1 =
        Except.error (PyError.runtimeError msgCifrado) := by
    intro d henc hd
    have hopen : abrir_documento (PdfFile.openable d) =
        Except.error (PyError.runtimeError msgCifrado) := by
      simp [abrir_documento, henc, hd]
    unfold analizar_pdf
    rw [hopen]
  refine ⟨?_, ?_, ?_, ?_⟩
  · rintro detail rfl
    exact ⟨_, rfl⟩
  · rintro d rfl henc hauth
    cases hd : d.authEmpty with
    | granted => exact absurd hd hauth
    | denied => exact ⟨_, hden d henc hd⟩
    | raised => exact ⟨_, hrai d henc hd⟩
  · rintro d rfl henc hd
    exact hden d henc hd
  · rintro d rfl henc hd
    exact hrai d henc hd

theorem fallo_documento_sin_resultados_test :
    PdfFile.openable ⟨docEjemplo, true, AuthResult.denied⟩ =
        PdfFile.openable ⟨docEjemplo, true, AuthResult.denied⟩ ∧
      analizar_pdf (PdfFile.openable ⟨docEjemplo, true, AuthResult.denied⟩) 5 none none =
        Except.error (PyError.valueError msgDocClosed) :=
  ⟨rfl,
    (fallo_documento_sin_resultados (PdfFile.openable ⟨docEjemplo, true, AuthResult.denied⟩)
        5 none none).2.2.1 ⟨docEjemplo, true, AuthResult.denied⟩ rfl rfl rfl⟩

theorem umbral_cero_clasifica_todo_test :
    (procesarPagina docEjemplo 0 2).tiene_texto = true ∧
      (analizarDoc docEjemplo 0 none none).2.paginas_sin_texto = 0 :=
  ⟨(umbral_cero_clasifica_todo docEjemplo 0 2 none none).1,
    (umbral_cero_clasifica_todo docEjemplo 0 2 none none).2.2.2⟩

theorem muestra_texto_correcta_test :
    pyLen (procesarPagina docEjemplo 5 0).muestra_texto ≤ 200 ∧
      (procesarPagina docEjemplo 5 1).muestra_texto = "" :=
  ⟨(muestra_texto_correcta docEjemplo 5 0).2.2.1,
    (muestra_texto_correcta docEjemplo 5 1).2.1 (by decide)⟩
